import Mathlib

/-!
# Verification of the frame-based scene state model of `src/App.tsx`

Shallow embedding of the tactical-board application's core state model:
tokens (markers), drawn lines (ink paths), frames (snapshots), the frame
sequence with its cursor, and all state-mutating operations
(`updateCurrentFrame`, `addNewFrame`, `deleteFrame`, `changeFrame`,
`addPlayerToCourt`, `handleDragEnd`, `removeSelectedToken`,
`getTokenAtPosition`, `handlePointerDown`, `handlePointerMove`,
`undoLastLine`, `clearLines`, `savePlay`, `loadPlay`, `deleteSavedPlay`).

Numeric coordinates are modelled as rationals (`ℚ`); the source's
JavaScript numbers are IEEE doubles, but every arithmetic fact proved here
uses only exact ring/field operations on the literals appearing in the
source. The hit test `Math.sqrt(dx*dx+dy*dy) <= 30` is embedded as
`dx*dx + dy*dy ≤ 30*30`, which is equivalent over the nonnegative reals
since squaring is monotone.
-/

namespace Prancheta

/-- Token category: `'ancb' | 'rival' | 'generic'` from `interface Token`. -/
inductive TokenType where
  | ancb
  | rival
  | generic
deriving DecidableEq, Repr

/-- Source `interface Token`: id, category, normalized position,
optional roster fields. -/
structure Token where
  id : String
  type : TokenType
  xRatio : ℚ
  yRatio : ℚ
  nome : Option String := none
  foto : Option String := none
  numero : Option Nat := none
deriving DecidableEq, Repr

instance : Inhabited Token := ⟨⟨"", .ancb, 0, 0, none, none, none⟩⟩

/-- Source `interface DrawnLine`: one freehand stroke, points stored as an
alternating flat list of x/y ratios. -/
structure DrawnLine where
  tool : String
  color : String
  pointRatios : List ℚ
deriving DecidableEq, Repr

/-- Source `courtType: 'half' | 'full'` — the background selection. -/
inductive CourtType where
  | half
  | full
deriving DecidableEq, Repr

/-- Source `interface Frame`: one snapshot of the scene. -/
structure Frame where
  courtType : CourtType
  tokens : List Token
  lines : List DrawnLine
deriving DecidableEq, Repr

instance : Inhabited Frame := ⟨⟨.half, [], []⟩⟩

/-- Source `interface SavedPlay`. -/
structure SavedPlay where
  id : String
  name : String
  frames : List Frame
  createdAt : Nat
deriving DecidableEq, Repr

/-- Source `interface Player` — a roster entry fetched from the remote store. -/
structure Player where
  id : String
  nome : String
  foto : Option String := none
  posicao : Option String := none
deriving DecidableEq, Repr

/-- Source `const SIDEBAR_X = 0.044`. -/
def SIDEBAR_X : ℚ := 44 / 1000

/-- Source `buildDefaultTokens`: five rival and five generic tokens parked in the
sidebar column. -/
def buildDefaultTokens : List Token :=
  let rivals : List Token := (List.range 5).map fun (i : Nat) =>
    { id := "rival-" ++ toString (i + 1), type := .rival, numero := some (i + 1),
      xRatio := SIDEBAR_X, yRatio := 7/100 + (i : ℚ) * (9/100) }
  let generics : List Token := (List.range 5).map fun (i : Nat) =>
    { id := "generic-" ++ toString (i + 1), type := .generic, numero := some (i + 1),
      xRatio := SIDEBAR_X, yRatio := 52/100 + (i : ℚ) * (9/100) }
  rivals ++ generics

/-- The mutable state of the `App` component that the claims are about:
the frame sequence and cursor, the current token selection, the effective
drawing flag (`isDrawing` combined with `isActuallyDrawingRef` — the two
are set and cleared together on the paths modelled here), the pen color
and the saved-plays list. -/
structure AppState where
  frames : List Frame
  currentFrameIndex : Nat
  selectedTokenId : Option String
  isDrawing : Bool
  lineColor : String
  savedPlays : List SavedPlay
deriving DecidableEq, Repr

/-- The initial `useState` values: one half-court frame with the default
tokens and no lines, cursor 0, nothing selected, red pen, no saved plays
(the `localStorage` bootstrap is an external input, out of the modelled
core). -/
def initState : AppState :=
  { frames := [{ courtType := .half, tokens := buildDefaultTokens, lines := [] }],
    currentFrameIndex := 0, selectedTokenId := none, isDrawing := false,
    lineColor := "#ff0000", savedPlays := [] }

/-- Source `const currentFrame = frames[currentFrameIndex]`. -/
def currentFrame (s : AppState) : Frame :=
  s.frames.getD s.currentFrameIndex default

/-- A `Partial<Frame>` patch as passed to `updateCurrentFrame`. -/
structure FramePatch where
  courtType : Option CourtType := none
  tokens : Option (List Token) := none
  lines : Option (List DrawnLine) := none
deriving Repr

/-- The spread `{ ...frame, ...patch }`: present patch fields win. -/
def applyPatch (f : Frame) (p : FramePatch) : Frame :=
  { courtType := p.courtType.getD f.courtType,
    tokens := p.tokens.getD f.tokens,
    lines := p.lines.getD f.lines }

/-- Source `updateCurrentFrame(patch)`: the single current-frame write path;
replaces `frames[currentFrameIndex]` with the patched frame. -/
def updateCurrentFrame (s : AppState) (p : FramePatch) : AppState :=
  let patched := applyPatch (s.frames.getD s.currentFrameIndex default) p
  { s with frames := s.frames.set s.currentFrameIndex patched }

/-- Source `setCourtType` (the state part; asset reloading is rendering, out of
scope). -/
def setCourtType (s : AppState) (ct : CourtType) : AppState :=
  updateCurrentFrame s { courtType := some ct }

/-- Source `changeFrame(index)`: bounds-checked navigation. The source index is a
JS number, so it is modelled as an integer to capture negative inputs. -/
def changeFrame (s : AppState) (index : Int) : AppState :=
  if 0 ≤ index ∧ index < (s.frames.length : Int) then
    { s with currentFrameIndex := index.toNat, selectedTokenId := none }
  else s

/-- Source `addNewFrame`: appends a frame that copies the current tokens
(`JSON.parse(JSON.stringify(tokens))` — a deep copy, which for immutable
values is the identity), keeps the court type, starts with no lines, and
moves the cursor to the new last frame. -/
def addNewFrame (s : AppState) : AppState :=
  let newFrame : Frame :=
    { courtType := (currentFrame s).courtType, tokens := (currentFrame s).tokens,
      lines := [] }
  { s with frames := s.frames ++ [newFrame],
           currentFrameIndex := (s.frames ++ [newFrame]).length - 1,
           selectedTokenId := none }

/-- Source `deleteFrame`: rejected outright when only one frame remains; otherwise
asks for confirmation, then removes the frame at the cursor
(`prev.filter((_, i) => i !== currentFrameIndex)`) and clamps the cursor to
`min(currentFrameIndex, next.length - 1)`. -/
def deleteFrame (s : AppState) (confirmed : Bool) : AppState :=
  if s.frames.length ≤ 1 then s
  else if confirmed = false then s
  else
    let next := (s.frames.enum.filter
      (fun q => decide (¬ q.1 = s.currentFrameIndex))).map Prod.snd
    { s with frames := next,
             currentFrameIndex := min s.currentFrameIndex (next.length - 1) }

/-- The position recomputation inside `addPlayerToCourt`: every `ancb`
token is re-laid-out onto the centered top row according to its index in
the pre-existing `ancb` token list. -/
def relayoutToken (ancbTokens : List Token) (rowW spacingR : ℚ) (t : Token) : Token :=
  if t.type = .ancb then
    let idx := ancbTokens.findIdx fun u => decide (u.id = t.id)
    { t with xRatio := 1/2 - rowW / 2 + idx * spacingR, yRatio := 7/100 }
  else t

/-- The token-list computation of `addPlayerToCourt`'s non-duplicate
branch: recenter the existing `ancb` row (spacing `0.10`, row `y = 0.07`)
and append the fresh token. -/
def addPlayerTokens (tokens : List Token) (player : Player) (now : Nat) : List Token :=
  let ancbTokens := tokens.filter fun t => decide (t.type = .ancb)
  let count := ancbTokens.length
  let total := count + 1
  let spacingR : ℚ := 10/100
  let rowW : ℚ := ((total : ℚ) - 1) * spacingR
  let updatedTokens := tokens.map (relayoutToken ancbTokens rowW spacingR)
  let newToken : Token :=
    { id := player.id ++ "-" ++ toString now, type := .ancb,
      nome := some player.nome, foto := player.foto,
      xRatio := 1/2 - rowW / 2 + count * spacingR, yRatio := 7/100 }
  updatedTokens ++ [newToken]

/-- Source `addPlayerToCourt(player)`: no-op when an `ancb` token with the same
`nome` is already on court; otherwise recenters the existing `ancb` row and
appends a fresh token whose id is `` `${player.id}-${Date.now()}` `` (the
clock is the explicit `now` parameter). -/
def addPlayerToCourt (s : AppState) (player : Player) (now : Nat) : AppState :=
  let tokens := (currentFrame s).tokens
  if (tokens.filter fun t => decide (t.type = .ancb)).any
      (fun t => decide (t.nome = some player.nome)) then s
  else updateCurrentFrame s { tokens := some (addPlayerTokens tokens player now) }

/-- Source `handleDragEnd(id, xRatio, yRatio)`: clamps the dropped ratio position
into `[0.02, 0.98]` and writes it into the matching token. -/
def handleDragEnd (s : AppState) (id : String) (xRatio yRatio : ℚ) : AppState :=
  let clampedX := max (2/100) (min (98/100) xRatio)
  let clampedY := max (2/100) (min (98/100) yRatio)
  updateCurrentFrame s { tokens := some ((currentFrame s).tokens.map fun t =>
    if t.id = id then { t with xRatio := clampedX, yRatio := clampedY } else t) }

/-- Source `parseInt(selectedTokenId.split('-')[1])` for the well-formed slot ids
`rival-N` / `generic-N` (on those inputs JS `parseInt` and this agree). -/
def parseSlotNum (id : String) : Nat :=
  (((id.splitOn "-").getD 1 "").toNat?).getD 0

/-- Source `removeSelectedToken`: parks a rival/generic token back on its fixed
sidebar slot, removes an `ancb` token outright, and clears the selection. -/
def removeSelectedToken (s : AppState) : AppState :=
  match s.selectedTokenId with
  | none => s
  | some sel =>
    let s' :=
      if sel.startsWith "rival-" then
        let num := parseSlotNum sel
        updateCurrentFrame s { tokens := some ((currentFrame s).tokens.map fun t =>
          if t.id = sel then
            { t with xRatio := SIDEBAR_X, yRatio := 7/100 + ((num : ℚ) - 1) * (9/100) }
          else t) }
      else if sel.startsWith "generic-" then
        let num := parseSlotNum sel
        updateCurrentFrame s { tokens := some ((currentFrame s).tokens.map fun t =>
          if t.id = sel then
            { t with xRatio := SIDEBAR_X, yRatio := 52/100 + ((num : ℚ) - 1) * (9/100) }
          else t) }
      else
        updateCurrentFrame s { tokens := some ((currentFrame s).tokens.filter
          fun t => decide (¬ t.id = sel)) }
    { s' with selectedTokenId := none }

/-- The hit predicate of `getTokenAtPosition`:
`Math.sqrt(dx*dx + dy*dy) <= 30`, stated squared (equivalent over the
nonnegative reals since squaring is monotone): `dx*dx + dy*dy ≤ 30*30`. -/
def withinHit (W H x y : ℚ) (t : Token) : Prop :=
  (t.xRatio * W - x) * (t.xRatio * W - x)
    + (t.yRatio * H - y) * (t.yRatio * H - y) ≤ 30 * 30

instance (W H x y : ℚ) (t : Token) : Decidable (withinHit W H x y t) := by
  unfold withinHit; infer_instance

/-- Source `getTokenAtPosition(x, y)`: the for-loop over `tokens` that returns the
first token within the hit radius, else `null`. `W`/`H` are the stage
dimensions the closure captures. -/
def getTokenAtPosition (W H : ℚ) (tokens : List Token) (x y : ℚ) : Option String :=
  match tokens with
  | [] => none
  | t :: ts =>
    if withinHit W H x y t then some t.id else getTokenAtPosition W H ts x y

/-- Source `handlePointerDown`: a hit on a token arms a drag (both drawing flags
cleared / left unarmed); a miss starts a one-point pen line and arms
drawing. -/
def handlePointerDown (s : AppState) (W H x y : ℚ) : AppState :=
  match getTokenAtPosition W H (currentFrame s).tokens x y with
  | some _ => { s with isDrawing := false }
  | none =>
    let newLine : DrawnLine :=
      { tool := "pen", color := s.lineColor, pointRatios := [x / W, y / H] }
    { updateCurrentFrame s { lines := some ((currentFrame s).lines ++ [newLine]) }
        with isDrawing := true }

/-- Source `handlePointerMove`: while drawing, appends the point to the last line
of the current frame. (If the line list were empty while drawing the
source would throw on `last.pointRatios`; that branch is modelled as the
identity and is unreachable in the drawing flow, which always opens a line
on pointer-down.) -/
def handlePointerMove (s : AppState) (W H x y : ℚ) : AppState :=
  if s.isDrawing = false then s
  else
    let frame := s.frames.getD s.currentFrameIndex default
    match frame.lines.getLast? with
    | none => s
    | some last =>
      let newLines := frame.lines.dropLast ++
        [{ last with pointRatios := last.pointRatios ++ [x / W, y / H] }]
      { s with frames := s.frames.set s.currentFrameIndex { frame with lines := newLines } }

/-- Source `handlePointerUp`: stops drawing. -/
def handlePointerUp (s : AppState) : AppState :=
  { s with isDrawing := false }

/-- Source `undoLastLine`: `lines.slice(0, -1)` — drop the last stroke. -/
def undoLastLine (s : AppState) : AppState :=
  updateCurrentFrame s { lines := some (currentFrame s).lines.dropLast }

/-- Source `clearLines`: empty the stroke list. -/
def clearLines (s : AppState) : AppState :=
  updateCurrentFrame s { lines := some [] }

/-- Source `setSelectedTokenId`, as invoked from token clicks / stage clicks. -/
def selectToken (s : AppState) (id : Option String) : AppState :=
  { s with selectedTokenId := id }

/-- Source `savePlay`: rejected on a blank name; otherwise prepends a play whose
frames are the whole current sequence (`Date.now()` is `now`). -/
def savePlay (s : AppState) (name : String) (now : Nat) : AppState :=
  if name.trim = "" then s
  else
    let newPlay : SavedPlay :=
      { id := toString now, name := name, frames := s.frames, createdAt := now }
    { s with savedPlays := newPlay :: s.savedPlays }

/-- Source `loadPlay(play)`: replaces the sequence and resets the cursor to 0. -/
def loadPlay (s : AppState) (play : SavedPlay) : AppState :=
  { s with frames := play.frames, currentFrameIndex := 0 }

/-- Source `deleteSavedPlay(id)` after the confirmation dialog. -/
def deleteSavedPlay (s : AppState) (id : String) (confirmed : Bool) : AppState :=
  if confirmed then
    { s with savedPlays := s.savedPlays.filter fun q => decide (¬ q.id = id) }
  else s

/-- Geometry Normalizer, pixel direction: `token.xRatio * canvasW`,
`token.yRatio * canvasH` (the `PlayerToken` render). -/
def toPixels (r : ℚ × ℚ) (w h : ℚ) : ℚ × ℚ :=
  (r.1 * w, r.2 * h)

/-- Geometry Normalizer, ratio direction: `e.target.x() / canvasW`,
`e.target.y() / canvasH` (the drag-end callback). -/
def toRatio (p : ℚ × ℚ) (w h : ℚ) : ℚ × ℚ :=
  (p.1 / w, p.2 / h)

/-- States reachable from the initial state through the application's
event handlers. A play may only be loaded if it is in the saved-plays
list (the UI offers exactly those). -/
inductive Reachable : AppState → Prop where
  | init : Reachable initState
  | updateCurrent {s} (p : FramePatch) : Reachable s → Reachable (updateCurrentFrame s p)
  | setCourt {s} (ct : CourtType) : Reachable s → Reachable (setCourtType s ct)
  | navigate {s} (i : Int) : Reachable s → Reachable (changeFrame s i)
  | duplicate {s} : Reachable s → Reachable (addNewFrame s)
  | removeFrame {s} (c : Bool) : Reachable s → Reachable (deleteFrame s c)
  | addPlayer {s} (p : Player) (now : Nat) : Reachable s → Reachable (addPlayerToCourt s p now)
  | dragEnd {s} (id : String) (x y : ℚ) : Reachable s → Reachable (handleDragEnd s id x y)
  | removeToken {s} : Reachable s → Reachable (removeSelectedToken s)
  | pointerDown {s} (W H x y : ℚ) : Reachable s → Reachable (handlePointerDown s W H x y)
  | pointerMove {s} (W H x y : ℚ) : Reachable s → Reachable (handlePointerMove s W H x y)
  | pointerUp {s} : Reachable s → Reachable (handlePointerUp s)
  | undo {s} : Reachable s → Reachable (undoLastLine s)
  | clear {s} : Reachable s → Reachable (clearLines s)
  | select {s} (id : Option String) : Reachable s → Reachable (selectToken s id)
  | save {s} (name : String) (now : Nat) : Reachable s → Reachable (savePlay s name now)
  | load {s} (play : SavedPlay) : play ∈ s.savedPlays → Reachable s → Reachable (loadPlay s play)
  | removeSaved {s} (id : String) (c : Bool) : Reachable s → Reachable (deleteSavedPlay s id c)

/-- The Frame Store invariant, strengthened with the auxiliary fact that
every saved play also has a nonempty frame list (needed so that loading
one re-establishes the sequence invariant). -/
def StoreInv (s : AppState) : Prop :=
  1 ≤ s.frames.length ∧ s.currentFrameIndex < s.frames.length ∧
    ∀ p ∈ s.savedPlays, 1 ≤ p.frames.length

/-- Modelled from the spec's words (§4.2 `relayout`): the roster (`ancb`)
markers of a snapshot sit on the fixed row `y = 0.07`, evenly spaced
`0.10` apart and centered horizontally around `x = 0.5`. Used to compare
the spec's relayout description with what the code actually produces. -/
def evenlySpacedCenteredRow (tokens : List Token) : Bool :=
  let anc := tokens.filter fun t => decide (t.type = .ancb)
  let n := anc.length
  (List.range n).all fun i =>
    decide ((anc.getD i default).xRatio
        = 1/2 - ((n : ℚ) - 1) * (10/100) / 2 + (i : ℚ) * (10/100))
    && decide ((anc.getD i default).yRatio = 7/100)

/-- A three-frame state used to instantiate universally quantified
theorems on concrete inputs. -/
def demoState3 : AppState :=
  { frames := [default, default, default], currentFrameIndex := 1,
    selectedTokenId := none, isDrawing := false, lineColor := "#ff0000",
    savedPlays := [] }

/-- Roster entries used to instantiate theorems on concrete inputs. -/
def demoAna : Player := { id := "p1", nome := "Ana" }

/-- Second concrete roster entry. -/
def demoBia : Player := { id := "p2", nome := "Bia" }

/-- A roster marker at the left slot of the two-marker centered row —
exactly the layout `addPlayerToCourt` produces after two adds. -/
def cntToken1 : Token :=
  { id := "a1", type := .ancb, xRatio := 45/100, yRatio := 7/100, nome := some "Ana" }

/-- A roster marker at the right slot of the two-marker centered row. -/
def cntToken2 : Token :=
  { id := "a2", type := .ancb, xRatio := 55/100, yRatio := 7/100, nome := some "Bia" }

/-- A state holding a snapshot with the two roster markers of the
two-marker centered row, the first one selected. -/
def sCounter : AppState :=
  { frames := [{ courtType := .half, tokens := [cntToken1, cntToken2], lines := [] }],
    currentFrameIndex := 0, selectedTokenId := some "a1", isDrawing := false,
    lineColor := "#ff0000", savedPlays := [] }

/-! ## Helper lemmas -/

theorem set_getElem_self (l : List Frame) (i : Nat) (h : i < l.length) :
    l.set i l[i] = l := by
  apply List.ext_getElem?
  intro n
  by_cases hn : i = n
  · subst hn
    simp [List.getElem?_set_self h, List.getElem?_eq_getElem h]
  · simp [List.getElem?_set_ne hn]

theorem currentFrame_eq_getElem (s : AppState) (h : s.currentFrameIndex < s.frames.length) :
    currentFrame s = s.frames[s.currentFrameIndex] := by
  simp only [currentFrame]
  rw [List.getD_eq_getElem _ _ h]

theorem length_frames_updateCurrentFrame (s : AppState) (p : FramePatch) :
    (updateCurrentFrame s p).frames.length = s.frames.length := by
  simp [updateCurrentFrame]

theorem getElem?_frames_updateCurrentFrame (s : AppState) (p : FramePatch) {j : Nat}
    (hj : j ≠ s.currentFrameIndex) :
    (updateCurrentFrame s p).frames[j]? = s.frames[j]? := by
  simp [updateCurrentFrame, List.getElem?_set_ne (Ne.symm hj)]

theorem currentFrame_updateCurrentFrame (s : AppState) (p : FramePatch)
    (h : s.currentFrameIndex < s.frames.length) :
    currentFrame (updateCurrentFrame s p) = applyPatch (currentFrame s) p := by
  simp [currentFrame, updateCurrentFrame, List.getElem?_set_self h]

/-! ## C6: ratio/pixel round trip -/

/-- C6: for every pixel point and positive canvas dimensions, converting
to ratio coordinates and back to pixels restores the point (the ℚ model
is exact, so the floating-point tolerance is not needed). -/
theorem ratio_pixel_round_trip (p : ℚ × ℚ) (w h : ℚ) (hw : 0 < w) (hh : 0 < h) :
    toPixels (toRatio p w h) w h = p := by
  cases p with
  | mk px py =>
    simp [toPixels, toRatio, div_mul_cancel₀ _ hw.ne', div_mul_cancel₀ _ hh.ne']

/-- Witness for C6 at the pixel point (3, 5) on a 4 × 7 canvas. -/
theorem ratio_pixel_round_trip_witness :
    toPixels (toRatio (3, 5) 4 7) 4 7 = ((3 : ℚ), (5 : ℚ)) :=
  ratio_pixel_round_trip (3, 5) 4 7 (by norm_num) (by norm_num)

/-! ## C7: undo of the last ink path -/

/-- C7: `undoLastLine` leaves the active snapshot with exactly the first
N-1 paths in their original order (the removed path is the last one), and
is a no-op on a snapshot with no paths. -/
theorem undoLastLine_spec (s : AppState) (h : s.currentFrameIndex < s.frames.length) :
    (currentFrame (undoLastLine s)).lines = (currentFrame s).lines.dropLast
    ∧ ((currentFrame s).lines ≠ [] →
        (currentFrame (undoLastLine s)).lines.length = (currentFrame s).lines.length - 1)
    ∧ ((currentFrame s).lines = [] → undoLastLine s = s) := by
  refine ⟨?_, ?_, ?_⟩
  · rw [undoLastLine, currentFrame_updateCurrentFrame s _ h]
    simp [applyPatch]
  · intro _
    rw [undoLastLine, currentFrame_updateCurrentFrame s _ h]
    simp [applyPatch]
  · intro hnil
    have hcf : currentFrame s = s.frames[s.currentFrameIndex] :=
      currentFrame_eq_getElem s h
    rw [hcf] at hnil
    have hpatched :
        applyPatch (s.frames.getD s.currentFrameIndex default)
          { lines := some (currentFrame s).lines.dropLast } =
          s.frames[s.currentFrameIndex] := by
      rw [hcf]
      simp [applyPatch, currentFrame, List.getD_eq_getElem?_getD,
        List.getElem?_eq_getElem h, hnil]
      rw [← hnil]
    show updateCurrentFrame s _ = s
    simp only [updateCurrentFrame]
    rw [hpatched, set_getElem_self s.frames s.currentFrameIndex h]

/-- Witness for C7 at the initial state, whose single frame has no paths. -/
theorem undoLastLine_spec_witness : undoLastLine initState = initState :=
  (undoLastLine_spec initState (by decide)).2.2 (by decide)

/-! ## C8: bounds-checked navigation -/

/-- C8: `changeFrame` ignores an out-of-range index entirely, and with a
valid index moves the cursor there, keeps the frames, and clears the
marker selection. -/
theorem changeFrame_spec (s : AppState) (i : Int) :
    (¬ (0 ≤ i ∧ i < (s.frames.length : Int)) → changeFrame s i = s)
    ∧ ((0 ≤ i ∧ i < (s.frames.length : Int)) →
        (changeFrame s i).frames = s.frames
        ∧ ((changeFrame s i).currentFrameIndex : Int) = i
        ∧ (changeFrame s i).selectedTokenId = none) := by
  constructor
  · intro hbad
    simp [changeFrame, hbad]
  · intro hok
    simp [changeFrame, hok, Int.toNat_of_nonneg hok.1]

/-- Witness for C8: `changeFrame 99` on a three-frame state is a no-op. -/
theorem changeFrame_spec_witness : changeFrame demoState3 99 = demoState3 :=
  (changeFrame_spec demoState3 99).1 (by decide)

/-! ## C10: every current-frame mutation touches only the current snapshot -/

/-- C10: each mutation routed through the current-frame write path
(marker drag-end, parking/removal of a marker, starting a stroke,
appending stroke points, undo-last, clear-all, background change)
preserves `frames.length` and every snapshot at an index other than
`currentFrameIndex`. -/
theorem current_frame_write_locality (s : AppState) (W H x y xr yr : ℚ)
    (id : String) (ct : CourtType) (j : Nat) (hj : j ≠ s.currentFrameIndex) :
    ((handleDragEnd s id xr yr).frames.length = s.frames.length
      ∧ (handleDragEnd s id xr yr).frames[j]? = s.frames[j]?)
    ∧ ((removeSelectedToken s).frames.length = s.frames.length
      ∧ (removeSelectedToken s).frames[j]? = s.frames[j]?)
    ∧ ((handlePointerDown s W H x y).frames.length = s.frames.length
      ∧ (handlePointerDown s W H x y).frames[j]? = s.frames[j]?)
    ∧ ((handlePointerMove s W H x y).frames.length = s.frames.length
      ∧ (handlePointerMove s W H x y).frames[j]? = s.frames[j]?)
    ∧ ((undoLastLine s).frames.length = s.frames.length
      ∧ (undoLastLine s).frames[j]? = s.frames[j]?)
    ∧ ((clearLines s).frames.length = s.frames.length
      ∧ (clearLines s).frames[j]? = s.frames[j]?)
    ∧ ((setCourtType s ct).frames.length = s.frames.length
      ∧ (setCourtType s ct).frames[j]? = s.frames[j]?) := by
  have hL : ∀ p, (updateCurrentFrame s p).frames.length = s.frames.length :=
    fun p => length_frames_updateCurrentFrame s p
  have hG : ∀ p, (updateCurrentFrame s p).frames[j]? = s.frames[j]? :=
    fun p => getElem?_frames_updateCurrentFrame s p hj
  refine ⟨⟨hL _, hG _⟩, ?_, ?_, ?_, ⟨hL _, hG _⟩, ⟨hL _, hG _⟩, ⟨hL _, hG _⟩⟩
  · cases hsel : s.selectedTokenId with
    | none => simp [removeSelectedToken, hsel]
    | some sel =>
      unfold removeSelectedToken
      rw [hsel]
      dsimp only
      split_ifs <;> exact ⟨hL _, hG _⟩
  · unfold handlePointerDown
    split
    · exact ⟨rfl, rfl⟩
    · exact ⟨hL _, hG _⟩
  · unfold handlePointerMove
    split
    · exact ⟨rfl, rfl⟩
    · dsimp only
      cases hlast : (s.frames.getD s.currentFrameIndex default).lines.getLast? with
      | none => simp [hlast]
      | some last => simp [hlast, List.getElem?_set_ne (Ne.symm hj)]

/-- Witness for C10 at the middle frame of a three-frame state, checking
snapshot 0 is untouched. -/
theorem current_frame_write_locality_witness :
    (undoLastLine demoState3).frames.length = demoState3.frames.length
    ∧ (undoLastLine demoState3).frames[0]? = demoState3.frames[0]? :=
  (current_frame_write_locality demoState3 1 1 0 0 0 0 "tok" CourtType.half 0
    (by decide)).2.2.2.2.1

/-! ## C2: duplicate appends a fresh-ink deep copy and moves the cursor -/

/-- C2: `addNewFrame` appends exactly one snapshot, moves the cursor to
the new last snapshot, and the new snapshot has no ink paths, the same
background selection and the same markers (ids and positions) as the
snapshot it was duplicated from; the copy is by value — dragging a marker
in the new snapshot leaves the original snapshot intact. -/
theorem addNewFrame_spec (s : AppState) (h : s.currentFrameIndex < s.frames.length) :
    (addNewFrame s).frames.length = s.frames.length + 1
    ∧ (addNewFrame s).currentFrameIndex = (addNewFrame s).frames.length - 1
    ∧ (currentFrame (addNewFrame s)).lines = []
    ∧ (currentFrame (addNewFrame s)).courtType = (currentFrame s).courtType
    ∧ (currentFrame (addNewFrame s)).tokens = (currentFrame s).tokens
    ∧ ∀ id xr yr,
        (handleDragEnd (addNewFrame s) id xr yr).frames[s.currentFrameIndex]?
          = some (currentFrame s) := by
  have hcf : currentFrame (addNewFrame s) =
      { courtType := (currentFrame s).courtType, tokens := (currentFrame s).tokens,
        lines := [] } := by
    simp [currentFrame, addNewFrame, List.getElem?_concat_length]
  refine ⟨by simp [addNewFrame], by simp [addNewFrame], ?_, ?_, ?_, ?_⟩
  · rw [hcf]
  · rw [hcf]
  · rw [hcf]
  · intro id xr yr
    have hne : s.currentFrameIndex ≠ (addNewFrame s).currentFrameIndex := by
      simp only [addNewFrame]
      simp
      omega
    have h1 : (handleDragEnd (addNewFrame s) id xr yr).frames[s.currentFrameIndex]?
        = (addNewFrame s).frames[s.currentFrameIndex]? :=
      getElem?_frames_updateCurrentFrame (addNewFrame s) _ hne
    rw [h1]
    have h2 : (addNewFrame s).frames[s.currentFrameIndex]? = s.frames[s.currentFrameIndex]? := by
      simp only [addNewFrame]
      rw [List.getElem?_append_left h]
    rw [h2, List.getElem?_eq_getElem h, currentFrame_eq_getElem s h]

/-- Witness for C2 at the initial state. -/
theorem addNewFrame_spec_witness :
    (addNewFrame initState).frames.length = initState.frames.length + 1
    ∧ (currentFrame (addNewFrame initState)).lines = [] :=
  ⟨(addNewFrame_spec initState (by decide)).1,
    (addNewFrame_spec initState (by decide)).2.2.1⟩

/-! ## C3: delete-frame guard and cursor clamp -/

theorem enumFrom_filter_ne_keep {α : Type} :
    ∀ (l : List α) (n i : Nat), i < n →
      ((l.enumFrom n).filter (fun q => decide (¬ q.1 = i))).map Prod.snd = l := by
  intro l
  induction l with
  | nil => intro n i _; rfl
  | cons a t ih =>
    intro n i hlt
    have hd : decide (¬ n = i) = true := by simp; omega
    simp only [List.enumFrom_cons, List.filter_cons, hd, if_true, List.map_cons]
    rw [ih (n + 1) i (by omega)]

theorem enumFrom_filter_ne_eraseIdx {α : Type} :
    ∀ (l : List α) (i n : Nat),
      ((l.enumFrom n).filter (fun q => decide (¬ q.1 = n + i))).map Prod.snd
        = l.eraseIdx i
  | [], _, _ => rfl
  | a :: t, 0, n => by
    have hd : decide (¬ n = n + 0) = false := by simp
    simp only [List.enumFrom_cons, List.filter_cons, hd, if_false]
    exact enumFrom_filter_ne_keep t (n + 1) n (by omega)
  | a :: t, i + 1, n => by
    have hd : decide (¬ n = n + (i + 1)) = true := by simp
    simp only [List.enumFrom_cons, List.filter_cons, hd, if_true, List.map_cons]
    have heq : ∀ q : Nat × α, (decide (¬ q.1 = n + (i + 1))) =
        (decide (¬ q.1 = (n + 1) + i)) := by
      intro q
      have harith : n + (i + 1) = (n + 1) + i := by omega
      rw [harith]
    rw [List.filter_congr (fun q _ => heq q), enumFrom_filter_ne_eraseIdx t i (n + 1)]
    rfl

theorem deleteFrame_frames_eq (s : AppState) :
    ((s.frames.enum.filter (fun q => decide (¬ q.1 = s.currentFrameIndex))).map
      Prod.snd) = s.frames.eraseIdx s.currentFrameIndex := by
  have := enumFrom_filter_ne_eraseIdx s.frames s.currentFrameIndex 0
  simpa [List.enum] using this

/-- C3: deleting on a one-frame sequence is rejected with the whole state
unchanged (whatever the confirmation answer); with at least two frames (and
a confirmed dialog) the snapshot at the cursor is removed — earlier
snapshots unchanged, later ones shift down — and the new cursor is
`min(previousIndex, newLength - 1)`. -/
theorem deleteFrame_spec (s : AppState) (c : Bool)
    (h : s.currentFrameIndex < s.frames.length) :
    (s.frames.length = 1 → deleteFrame s c = s)
    ∧ (2 ≤ s.frames.length →
        (deleteFrame s true).frames.length = s.frames.length - 1
        ∧ (∀ j, j < s.currentFrameIndex →
            (deleteFrame s true).frames[j]? = s.frames[j]?)
        ∧ (∀ j, s.currentFrameIndex ≤ j →
            (deleteFrame s true).frames[j]? = s.frames[j + 1]?)
        ∧ (deleteFrame s true).currentFrameIndex
            = min s.currentFrameIndex ((deleteFrame s true).frames.length - 1)) := by
  constructor
  · intro h1
    simp [deleteFrame, h1]
  · intro h2
    have hguard : ¬ s.frames.length ≤ 1 := by omega
    have hdf : deleteFrame s true =
        { s with frames := s.frames.eraseIdx s.currentFrameIndex,
                 currentFrameIndex := min s.currentFrameIndex
                   ((s.frames.eraseIdx s.currentFrameIndex).length - 1) } := by
      simp only [deleteFrame, hguard, if_false, deleteFrame_frames_eq]
      rfl
    rw [hdf]
    refine ⟨List.length_eraseIdx_of_lt h, ?_, ?_, rfl⟩
    · intro j hjlt
      exact List.getElem?_eraseIdx_of_lt _ _ _ hjlt
    · intro j hjle
      exact List.getElem?_eraseIdx_of_ge _ _ _ hjle

/-- Witness for C3: deleting the middle frame of a three-frame sequence. -/
theorem deleteFrame_spec_witness :
    (deleteFrame demoState3 true).frames.length = demoState3.frames.length - 1
    ∧ (deleteFrame demoState3 true).currentFrameIndex
        = min demoState3.currentFrameIndex
            ((deleteFrame demoState3 true).frames.length - 1) :=
  ⟨((deleteFrame_spec demoState3 true (by decide)).2 (by decide)).1,
    ((deleteFrame_spec demoState3 true (by decide)).2 (by decide)).2.2.2⟩

/-! ## C1: the sequence invariant holds in every reachable state -/

theorem storeInv_updateCurrentFrame (s : AppState) (p : FramePatch)
    (hs : StoreInv s) : StoreInv (updateCurrentFrame s p) :=
  ⟨by rw [length_frames_updateCurrentFrame]; exact hs.1,
   by rw [length_frames_updateCurrentFrame]; exact hs.2.1,
   hs.2.2⟩

theorem storeInv_reachable {s : AppState} (hr : Reachable s) : StoreInv s := by
  induction hr with
  | init =>
    refine ⟨by simp [initState], by simp [initState], ?_⟩
    intro p hp
    simp [initState] at hp
  | updateCurrent p _ ih => exact storeInv_updateCurrentFrame _ _ ih
  | setCourt ct _ ih => exact storeInv_updateCurrentFrame _ _ ih
  | navigate i _ ih =>
    rename_i s' ha
    by_cases hcond : 0 ≤ i ∧ i < (s'.frames.length : Int)
    · simp only [changeFrame, if_pos hcond]
      refine ⟨ih.1, ?_, ih.2.2⟩
      show i.toNat < s'.frames.length
      obtain ⟨h0, h1⟩ := hcond
      omega
    · simp only [changeFrame, if_neg hcond]
      exact ih
  | duplicate _ ih =>
    refine ⟨?_, ?_, ih.2.2⟩
    · simp [addNewFrame]
    · simp only [addNewFrame, List.length_append, List.length_cons, List.length_nil]
      omega
  | removeFrame c _ ih =>
    rename_i s' ha
    by_cases hg : s'.frames.length ≤ 1
    · simp only [deleteFrame, if_pos hg]
      exact ih
    · by_cases hc : c = false
      · simp only [deleteFrame, if_neg hg, if_pos hc]
        exact ih
      · simp only [deleteFrame, if_neg hg, if_neg hc]
        have hlen : ((s'.frames.enum.filter
            (fun q => decide (¬ q.1 = s'.currentFrameIndex))).map Prod.snd).length
              = s'.frames.length - 1 := by
          rw [deleteFrame_frames_eq]
          exact List.length_eraseIdx_of_lt ih.2.1
        refine ⟨?_, ?_, ih.2.2⟩
        · simp only [hlen]
          omega
        · simp only [hlen]
          omega
  | addPlayer p now _ ih =>
    unfold addPlayerToCourt
    dsimp only
    split
    · exact ih
    · exact storeInv_updateCurrentFrame _ _ ih
  | dragEnd id xx yy _ ih => exact storeInv_updateCurrentFrame _ _ ih
  | removeToken _ ih =>
    rename_i s' _
    cases hsel : s'.selectedTokenId with
    | none =>
      unfold removeSelectedToken
      rw [hsel]
      exact ih
    | some sel =>
      unfold removeSelectedToken
      rw [hsel]
      dsimp only
      split_ifs <;> exact storeInv_updateCurrentFrame _ _ ih
  | pointerDown W H xx yy _ ih =>
    unfold handlePointerDown
    split
    · exact ih
    · exact storeInv_updateCurrentFrame _ _ ih
  | pointerMove W H xx yy _ ih =>
    rename_i s' _
    unfold handlePointerMove
    split
    · exact ih
    · dsimp only
      cases hlast : (s'.frames.getD s'.currentFrameIndex default).lines.getLast? with
      | none =>
        simp only [hlast]
        exact ih
      | some last =>
        simp only [hlast]
        refine ⟨?_, ?_, ih.2.2⟩
        · simp only [List.length_set]
          exact ih.1
        · simp only [List.length_set]
          exact ih.2.1
  | pointerUp _ ih => exact ih
  | undo _ ih => exact storeInv_updateCurrentFrame _ _ ih
  | clear _ ih => exact storeInv_updateCurrentFrame _ _ ih
  | select id _ ih => exact ih
  | save name now _ ih =>
    unfold savePlay
    split
    · exact ih
    · refine ⟨ih.1, ih.2.1, ?_⟩
      intro p hp
      rcases List.mem_cons.1 hp with h1 | h2
      · subst h1
        exact ih.1
      · exact ih.2.2 p h2
  | load play hmem _ ih =>
    refine ⟨ih.2.2 play hmem, ?_, ih.2.2⟩
    have := ih.2.2 play hmem
    show 0 < play.frames.length
    omega
  | removeSaved id c _ ih =>
    unfold deleteSavedPlay
    split
    · refine ⟨ih.1, ih.2.1, ?_⟩
      intro p hp
      exact ih.2.2 p (List.mem_of_mem_filter hp)
    · exact ih

/-- C1: in every reachable state, and hence after every operation applied
to a reachable state (duplicate, remove, navigate, updateCurrent, load of
a saved play, ...), the sequence invariant holds: at least one frame, and
the cursor strictly inside the sequence — in particular the cursor is
clamped back into range whenever the sequence shrinks. -/
theorem frameStore_invariant (s : AppState) (h : Reachable s) :
    1 ≤ s.frames.length ∧ s.currentFrameIndex < s.frames.length :=
  ⟨(storeInv_reachable h).1, (storeInv_reachable h).2.1⟩

/-- Witness for C1 at the initial state. -/
theorem frameStore_invariant_witness :
    1 ≤ initState.frames.length
    ∧ initState.currentFrameIndex < initState.frames.length :=
  frameStore_invariant initState Reachable.init

/-! ## C9: the hit-tester returns the first in-radius marker -/

/-- C9: the hit-tester returns the id of the first marker in list order
whose pixel distance to the pointer is within the hit radius — an
in-radius marker earlier in the list always wins, even against a strictly
nearer marker later in the list — and `none` when no marker is in
radius. -/
theorem getTokenAtPosition_first_hit (W H x y : ℚ) (toks : List Token) :
    (∀ i (hi : i < toks.length), withinHit W H x y (toks.get ⟨i, hi⟩) →
      (∀ j (hj : j < i), ¬ withinHit W H x y (toks.get ⟨j, Nat.lt_trans hj hi⟩)) →
      getTokenAtPosition W H toks x y = some (toks.get ⟨i, hi⟩).id)
    ∧ ((∀ t ∈ toks, ¬ withinHit W H x y t) →
        getTokenAtPosition W H toks x y = none) := by
  constructor
  · induction toks with
    | nil =>
      intro i hi
      exact absurd hi (by simp)
    | cons t ts ih =>
      intro i hi hwit hpre
      cases i with
      | zero =>
        have hwit' : withinHit W H x y t := hwit
        show getTokenAtPosition W H (t :: ts) x y = some t.id
        simp only [getTokenAtPosition]
        rw [if_pos hwit']
      | succ n =>
        have hmiss : ¬ withinHit W H x y t := hpre 0 (Nat.succ_pos n)
        simp only [getTokenAtPosition]
        rw [if_neg hmiss]
        exact ih n (Nat.lt_of_succ_lt_succ hi) hwit
          (fun j hj => hpre (j + 1) (Nat.succ_lt_succ hj))
  · induction toks with
    | nil => intro _; rfl
    | cons t ts ih =>
      intro hnone
      simp only [getTokenAtPosition]
      rw [if_neg (hnone t (List.mem_cons_self t ts))]
      exact ih fun u hu => hnone u (List.mem_cons_of_mem t hu)

/-- Witness for C9: the pointer at the origin of a 100 × 100 canvas; the
first token (10 px away, in radius) wins over the second (0 px away,
strictly nearer but later in order). -/
theorem getTokenAtPosition_first_hit_witness :
    getTokenAtPosition 100 100
      [{ id := "t1", type := .rival, xRatio := 1/10, yRatio := 0 },
       { id := "t2", type := .rival, xRatio := 0, yRatio := 0 }] 0 0
      = some "t1" := by
  refine (getTokenAtPosition_first_hit 100 100 0 0 _).1 0 (by norm_num) ?_ ?_
  · show withinHit 100 100 0 0 { id := "t1", type := .rival, xRatio := 1/10, yRatio := 0 }
    unfold withinHit
    norm_num
  · intro j hj
    exact absurd hj (Nat.not_lt_zero j)

/-! ## C4: duplicate prevention when adding roster entries -/

theorem relayoutToken_type (anc : List Token) (rowW sp : ℚ) (t : Token) :
    (relayoutToken anc rowW sp t).type = t.type := by
  unfold relayoutToken
  split <;> rfl

theorem relayoutToken_nome (anc : List Token) (rowW sp : ℚ) (t : Token) :
    (relayoutToken anc rowW sp t).nome = t.nome := by
  unfold relayoutToken
  split <;> rfl

theorem addPlayer_noop_of_dup (s : AppState) (p : Player) (now : Nat)
    (hdup : ∃ t ∈ (currentFrame s).tokens, t.type = .ancb ∧ t.nome = some p.nome) :
    addPlayerToCourt s p now = s := by
  obtain ⟨t, htmem, httype, htnome⟩ := hdup
  have hany : ((currentFrame s).tokens.filter fun t => decide (t.type = .ancb)).any
      (fun t => decide (t.nome = some p.nome)) = true := by
    rw [List.any_eq_true]
    exact ⟨t, List.mem_filter.2 ⟨htmem, by simp [httype]⟩, by simp [htnome]⟩
  unfold addPlayerToCourt
  rw [if_pos hany]

theorem dup_check_false (tokens : List Token) (p : Player)
    (hnone : ∀ t ∈ tokens, ¬ (t.type = .ancb ∧ t.nome = some p.nome)) :
    (tokens.filter fun t => decide (t.type = .ancb)).any
      (fun t => decide (t.nome = some p.nome)) = false := by
  rw [List.any_eq_false]
  intro t ht
  have httype : t.type = .ancb := by
    have := (List.mem_filter.1 ht).2
    simpa using this
  have htmem := List.mem_of_mem_filter ht
  simp only [decide_eq_true_eq]
  exact fun hn => hnone t htmem ⟨httype, hn⟩

theorem addPlayer_tokens_eq (s : AppState) (p : Player) (now : Nat)
    (h : s.currentFrameIndex < s.frames.length)
    (hany : ((currentFrame s).tokens.filter fun t => decide (t.type = .ancb)).any
      (fun t => decide (t.nome = some p.nome)) = false) :
    (currentFrame (addPlayerToCourt s p now)).tokens
      = addPlayerTokens (currentFrame s).tokens p now := by
  unfold addPlayerToCourt
  rw [if_neg (by simp [hany])]
  rw [currentFrame_updateCurrentFrame _ _ h]
  simp [applyPatch]

theorem addPlayerTokens_exists_ancb (tokens : List Token) (p : Player) (now : Nat) :
    ∃ t ∈ addPlayerTokens tokens p now, t.type = .ancb ∧ t.nome = some p.nome := by
  unfold addPlayerTokens
  refine ⟨_, List.mem_append_right _ (List.mem_singleton_self _), rfl, rfl⟩

theorem countP_addPlayerTokens (tokens : List Token) (p : Player) (now : Nat)
    (h0 : tokens.countP (fun t => decide (t.type = .ancb ∧ t.nome = some p.nome)) = 0) :
    (addPlayerTokens tokens p now).countP
      (fun t => decide (t.type = .ancb ∧ t.nome = some p.nome)) = 1 := by
  unfold addPlayerTokens
  rw [List.countP_append, List.countP_map]
  have hcongr : tokens.countP
      ((fun t => decide (t.type = .ancb ∧ t.nome = some p.nome)) ∘
        relayoutToken (tokens.filter fun t => decide (t.type = .ancb))
          ((((tokens.filter fun t => decide (t.type = .ancb)).length + 1 : ℕ) - 1 : ℚ)
            * (10/100)) (10/100))
      = tokens.countP (fun t => decide (t.type = .ancb ∧ t.nome = some p.nome)) := by
    apply List.countP_congr
    intro t _
    simp [Function.comp, relayoutToken_type, relayoutToken_nome]
  rw [hcongr, h0]
  simp [List.countP_cons]

/-- C4: adding a roster entry whose `displayName` already appears among
the snapshot's roster (`ancb`) markers is a silent no-op; when the entry is
new, the created marker's id is the roster id joined with the timestamp,
a second add of the same entry is a no-op, and the snapshot ends with
exactly one marker for that entry. -/
theorem addPlayerToCourt_duplicate_prevention (s : AppState) (p : Player)
    (now now' : Nat) (h : s.currentFrameIndex < s.frames.length) :
    ((∃ t ∈ (currentFrame s).tokens, t.type = .ancb ∧ t.nome = some p.nome) →
        addPlayerToCourt s p now = s)
    ∧ ((∀ t ∈ (currentFrame s).tokens, ¬ (t.type = .ancb ∧ t.nome = some p.nome)) →
        (currentFrame (addPlayerToCourt s p now)).tokens.getLast?.map Token.id
            = some (p.id ++ "-" ++ toString now)
        ∧ addPlayerToCourt (addPlayerToCourt s p now) p now'
            = addPlayerToCourt s p now
        ∧ (currentFrame (addPlayerToCourt (addPlayerToCourt s p now) p now')).tokens.countP
              (fun t => decide (t.type = .ancb ∧ t.nome = some p.nome)) = 1) := by
  constructor
  · exact addPlayer_noop_of_dup s p now
  · intro hnone
    have hany := dup_check_false (currentFrame s).tokens p hnone
    have htok := addPlayer_tokens_eq s p now h hany
    have hsecond : addPlayerToCourt (addPlayerToCourt s p now) p now'
        = addPlayerToCourt s p now := by
      apply addPlayer_noop_of_dup
      rw [htok]
      exact addPlayerTokens_exists_ancb _ p now
    refine ⟨?_, hsecond, ?_⟩
    · rw [htok]
      unfold addPlayerTokens
      rw [List.getLast?_concat]
      rfl
    · rw [hsecond, htok]
      apply countP_addPlayerTokens
      rw [List.countP_eq_zero]
      intro t ht
      simp only [decide_eq_true_eq]
      exact hnone t ht

/-- Witness for C4: adding "Ana" twice to the default scene yields exactly
one roster marker named "Ana", whose id is `p1-1`. -/
theorem addPlayerToCourt_duplicate_prevention_witness :
    (currentFrame (addPlayerToCourt initState demoAna 1)).tokens.getLast?.map Token.id
        = some ("p1" ++ "-" ++ toString 1)
    ∧ (currentFrame (addPlayerToCourt (addPlayerToCourt initState demoAna 1)
          demoAna 2)).tokens.countP
        (fun t => decide (t.type = .ancb ∧ t.nome = some demoAna.nome)) = 1 :=
  ⟨((addPlayerToCourt_duplicate_prevention initState demoAna 1 2 (by decide)).2
      (by decide)).1,
    ((addPlayerToCourt_duplicate_prevention initState demoAna 1 2 (by decide)).2
      (by decide)).2.2⟩

/-! ## C5: relayout of the roster row -/

theorem findIdx_id_getElem :
    ∀ (l : List Token) (i : Nat) (hi : i < l.length),
      (l.map Token.id).Nodup →
      (l.findIdx fun u => decide (u.id = (l.get ⟨i, hi⟩).id)) = i
  | [], i, hi, _ => absurd hi (by simp)
  | a :: t, 0, hi, hnd => by
    simp [List.findIdx_cons]
  | a :: t, i + 1, hi, hnd => by
    rw [List.map_cons, List.nodup_cons] at hnd
    have hi' : i < t.length := Nat.lt_of_succ_lt_succ hi
    have hmem : (t.get ⟨i, hi'⟩).id ∈ t.map Token.id :=
      List.mem_map_of_mem _ (List.get_mem t i hi')
    have hstep : (a :: t).get ⟨i + 1, hi⟩ = t.get ⟨i, hi'⟩ := rfl
    have hne : (decide (a.id = ((a :: t).get ⟨i + 1, hi⟩).id)) = false := by
      rw [hstep]
      simp only [decide_eq_false_iff_not]
      intro heq
      exact hnd.1 (by rw [heq]; exact hmem)
    rw [List.findIdx_cons, hne]
    simp only [cond_false]
    rw [hstep, findIdx_id_getElem t i hi' hnd.2]

theorem filter_ancb_map_relayout (tokens anc : List Token) (rowW sp : ℚ) :
    (tokens.map (relayoutToken anc rowW sp)).filter
        (fun t => decide (t.type = .ancb))
      = (tokens.filter fun t => decide (t.type = .ancb)).map
          (relayoutToken anc rowW sp) := by
  rw [List.filter_map]
  congr 1
  apply List.filter_congr
  intro t _
  simp [Function.comp, relayoutToken_type]

theorem evenlySpacedCenteredRow_of (tokens : List Token)
    (hx : ∀ i, i < (tokens.filter fun t => decide (t.type = .ancb)).length →
      ((tokens.filter fun t => decide (t.type = .ancb)).getD i default).xRatio
        = 1/2 - (((tokens.filter fun t =>
              decide (t.type = .ancb)).length : ℚ) - 1) * (10/100) / 2
          + (i : ℚ) * (10/100))
    (hy : ∀ i, i < (tokens.filter fun t => decide (t.type = .ancb)).length →
      ((tokens.filter fun t => decide (t.type = .ancb)).getD i default).yRatio
        = 7/100) :
    evenlySpacedCenteredRow tokens = true := by
  unfold evenlySpacedCenteredRow
  dsimp only
  rw [List.all_eq_true]
  intro i hi
  rw [List.mem_range] at hi
  rw [Bool.and_eq_true, decide_eq_true_eq, decide_eq_true_eq]
  exact ⟨hx i hi, hy i hi⟩

theorem relayout_getD (anc : List Token) (rowW sp : ℚ) (i : Nat)
    (hi : i < anc.length)
    (hanc : ∀ t ∈ anc, t.type = .ancb)
    (hids : (anc.map Token.id).Nodup) :
    (anc.map (relayoutToken anc rowW sp)).getD i default
      = { (anc.get ⟨i, hi⟩) with
          xRatio := 1/2 - rowW / 2 + (i : ℚ) * sp, yRatio := 7/100 } := by
  rw [List.getD_eq_getElem _ _ (by simpa using hi), List.getElem_map]
  have htype : (anc.get ⟨i, hi⟩).type = .ancb := hanc _ (List.get_mem anc i hi)
  show relayoutToken anc rowW sp (anc.get ⟨i, hi⟩) = _
  unfold relayoutToken
  rw [if_pos htype, findIdx_id_getElem anc i hi hids]

theorem evenlySpaced_addPlayerTokens (tokens : List Token) (p : Player) (now : Nat)
    (hids : ((tokens.filter fun t => decide (t.type = .ancb)).map Token.id).Nodup) :
    evenlySpacedCenteredRow (addPlayerTokens tokens p now) = true := by
  have hanc : ∀ t ∈ tokens.filter (fun t => decide (t.type = TokenType.ancb)),
      t.type = TokenType.ancb := by
    intro t ht
    simpa using (List.mem_filter.1 ht).2
  unfold addPlayerTokens
  dsimp only
  refine evenlySpacedCenteredRow_of _ ?_ ?_
  · intro i hi
    rw [List.filter_append, filter_ancb_map_relayout,
      List.filter_cons_of_pos (by rfl), List.filter_nil] at hi ⊢
    simp only [List.length_append, List.length_map, List.length_cons,
      List.length_nil] at hi ⊢
    by_cases hic : i < (tokens.filter fun t => decide (t.type = TokenType.ancb)).length
    · rw [List.getD_append _ _ _ _ (by simpa using hic)]
      rw [relayout_getD _ _ _ i hic hanc hids]
    · have hieq : i = (tokens.filter fun t =>
          decide (t.type = TokenType.ancb)).length := by omega
      subst hieq
      rw [List.getD_append_right _ _ _ _ (by simp)]
      simp only [List.length_map, Nat.sub_self]
      have hgd : ∀ (a : Token) (d : Token), ([a] : List Token).getD 0 d = a :=
        fun a d => rfl
      rw [hgd]
  · intro i hi
    rw [List.filter_append, filter_ancb_map_relayout,
      List.filter_cons_of_pos (by rfl), List.filter_nil] at hi ⊢
    simp only [List.length_append, List.length_map, List.length_cons,
      List.length_nil] at hi ⊢
    by_cases hic : i < (tokens.filter fun t => decide (t.type = TokenType.ancb)).length
    · rw [List.getD_append _ _ _ _ (by simpa using hic)]
      rw [relayout_getD _ _ _ i hic hanc hids]
    · have hieq : i = (tokens.filter fun t =>
          decide (t.type = TokenType.ancb)).length := by omega
      subst hieq
      rw [List.getD_append_right _ _ _ _ (by simp)]
      simp only [List.length_map, Nat.sub_self]
      have hgd : ∀ (a : Token) (d : Token), ([a] : List Token).getD 0 d = a :=
        fun a d => rfl
      rw [hgd]

/-- C5 (amended): the roster row is recomputed — evenly spaced along the
`y = 0.07` row and centered around `x = 0.5` — when a roster marker is
**added**; but when a roster marker is **removed**, the remaining markers
keep exactly the positions they already had (no relayout happens on
removal). -/
theorem relayout_add_only (s : AppState) (p : Player) (now : Nat)
    (h : s.currentFrameIndex < s.frames.length)
    (hids : (((currentFrame s).tokens.filter fun t =>
        decide (t.type = .ancb)).map Token.id).Nodup)
    (hnone : ∀ t ∈ (currentFrame s).tokens,
      ¬ (t.type = .ancb ∧ t.nome = some p.nome)) :
    evenlySpacedCenteredRow (currentFrame (addPlayerToCourt s p now)).tokens = true
    ∧ (∀ sel, s.selectedTokenId = some sel →
        sel.startsWith "rival-" = false → sel.startsWith "generic-" = false →
        ∀ t ∈ (currentFrame (removeSelectedToken s)).tokens,
          t ∈ (currentFrame s).tokens) := by
  constructor
  · rw [addPlayer_tokens_eq s p now h (dup_check_false _ p hnone)]
    exact evenlySpaced_addPlayerTokens _ p now hids
  · intro sel hsel hrv hgn t ht
    unfold removeSelectedToken at ht
    rw [hsel] at ht
    simp only [hrv, hgn, Bool.false_eq_true, if_false] at ht
    simp only [currentFrame, updateCurrentFrame, applyPatch,
      List.getElem?_set_self h, List.getElem?_eq_getElem h,
      List.getD_eq_getElem?_getD, Option.getD_some, List.mem_filter] at ht
    rw [currentFrame_eq_getElem s h]
    exact ht.1

/-- Witness for the amended C5: adding "Ana" to the default scene produces
the evenly spaced centered roster row. -/
theorem relayout_add_only_witness :
    evenlySpacedCenteredRow
      (currentFrame (addPlayerToCourt initState demoAna 1)).tokens = true :=
  (relayout_add_only initState demoAna 1 (by decide) (by decide) (by decide)).1

/-- C5 counterexample: the claim "positions are recomputed ... whenever a
roster marker is ... removed (no gaps are left after a removal)" fails on
the code. Removing the selected roster marker `a1` from the two-marker
centered row (the exact layout two adds produce) leaves `a2` at
`x = 0.55`: the remaining row is not recentered. -/
theorem relayout_remove_counterexample :
    evenlySpacedCenteredRow
      (currentFrame (removeSelectedToken sCounter)).tokens = false := by
  have hstate : (currentFrame (removeSelectedToken sCounter)).tokens = [cntToken2] := by
    have hrv : ("a1".startsWith "rival-") = false := by decide
    have hgn : ("a1".startsWith "generic-") = false := by decide
    simp [removeSelectedToken, sCounter, currentFrame, updateCurrentFrame,
      applyPatch, cntToken1, cntToken2, hrv, hgn]
  rw [hstate]
  simp [evenlySpacedCenteredRow, cntToken2, List.range_succ]
  norm_num

end Prancheta
